import Mathlib

/-!
Verification development for the two-stage face-recognition pipeline
(`fd_lambda.py`, `fr_lambda.py`).

Embedding conventions:
* tensors and embedding vectors are lists of rationals (`List ℚ`);
  image tensors with channel structure are `List (List ℚ)`;
* external library calls (`base64.b64decode`, `json.loads`, the MTCNN
  detector, the embedding network, `sqs.send_message`) are parameters of the
  handler models: each is passed in as an oracle describing its outcome,
  with `Option`/failure values standing for raised exceptions;
* Python exceptions are modelled by the control flow they produce in the
  handlers (which `except` clause catches them), not re-raised.
-/

/-- Squared L2 distance between two vectors, the square of what
`torch.dist(emb, e)` (p = 2) computes in `FaceRecognition.predict`. -/
def dist2 (q e : List ℚ) : ℚ :=
  (List.zipWith (fun a b => (a - b) ^ 2) q e).sum

/-- Euclidean (L2) distance, `torch.dist(emb, e).item()`.  Specification-side
only: the executable matcher below compares squared distances, which the
monotonicity of `Real.sqrt` shows is the same comparison. -/
noncomputable def eucl (q e : List ℚ) : ℝ :=
  Real.sqrt ((dist2 q e : ℚ) : ℝ)

/-- Index of the first minimum of a list, the behaviour documented for
`np.argmin`: "In case of occurrence of multiple of the minimum values, the
indices corresponding to the first occurrence are returned."  On the empty
list (`np.argmin` raises there) the value `0` is junk, guarded by callers. -/
def argminIdx : List ℚ → Nat
  | [] => 0
  | d :: ds => if ds.all (fun x => d ≤ x) then 0 else argminIdx ds + 1

/-- The matcher `FaceRecognition.predict` (fr_lambda.py lines 40-53), abstracted over the
embedding network: given the gallery (`self._embeddings`, `self._names`) and
the query embedding produced by the network, it takes the argmin of the L2
distances and returns the name at that index.  `none` models the exceptions
raised by `np.argmin` on an empty gallery or by the index lookup. -/
def predict (embeddings : List (List ℚ)) (names : List String)
    (query : List ℚ) : Option String :=
  if embeddings.isEmpty then none
  else names.get? (argminIdx (embeddings.map (fun e => dist2 query e)))

theorem dist2_nonneg (q e : List ℚ) : 0 ≤ dist2 q e := by
  unfold dist2
  induction q generalizing e with
  | nil => simp
  | cons a as ih =>
    cases e with
    | nil => simp
    | cons b bs =>
      simp only [List.zipWith_cons_cons, List.sum_cons]
      have h1 : (0 : ℚ) ≤ (a - b) ^ 2 := sq_nonneg _
      have h2 := ih bs
      linarith

theorem dist2_self (q : List ℚ) : dist2 q q = 0 := by
  unfold dist2
  induction q with
  | nil => simp
  | cons a as ih => simp [ih]

theorem eucl_nonneg (q e : List ℚ) : 0 ≤ eucl q e := Real.sqrt_nonneg _

theorem eucl_le_iff (q a b : List ℚ) : eucl q a ≤ eucl q b ↔ dist2 q a ≤ dist2 q b := by
  unfold eucl
  rw [Real.sqrt_le_sqrt_iff (by exact_mod_cast dist2_nonneg q b)]
  exact_mod_cast Iff.rfl

theorem eucl_lt_iff (q a b : List ℚ) : eucl q a < eucl q b ↔ dist2 q a < dist2 q b := by
  unfold eucl
  rw [Real.sqrt_lt_sqrt_iff (by exact_mod_cast dist2_nonneg q a)]
  exact_mod_cast Iff.rfl

theorem eucl_eq_iff (q a b : List ℚ) : eucl q a = eucl q b ↔ dist2 q a = dist2 q b := by
  unfold eucl
  rw [Real.sqrt_inj (by exact_mod_cast dist2_nonneg q a) (by exact_mod_cast dist2_nonneg q b)]
  exact_mod_cast Iff.rfl

theorem eucl_pos_iff (q a : List ℚ) : 0 < eucl q a ↔ 0 < dist2 q a := by
  unfold eucl
  rw [Real.sqrt_pos]
  exact_mod_cast Iff.rfl

theorem argminIdx_lt_length (l : List ℚ) (h : l ≠ []) : argminIdx l < l.length := by
  induction l with
  | nil => exact absurd rfl h
  | cons d ds ih =>
    by_cases hall : ds.all (fun x => d ≤ x)
    · simp [argminIdx, hall]
    · have hne : ds ≠ [] := by
        intro hnil; subst hnil; simp at hall
      have := ih hne
      simp only [argminIdx, if_neg hall, List.length_cons]
      omega

theorem argminIdx_le (l : List ℚ) (hal : argminIdx l < l.length)
    (j : Nat) (hj : j < l.length) : l.get ⟨argminIdx l, hal⟩ ≤ l.get ⟨j, hj⟩ := by
  induction l generalizing j with
  | nil => simp at hj
  | cons d ds ih =>
    by_cases hall : ds.all (fun x => d ≤ x)
    · have hmem : ∀ x ∈ ds, d ≤ x := by
        intro x hx
        have := List.all_eq_true.mp hall x hx
        exact of_decide_eq_true this
      cases j with
      | zero => simp [argminIdx, hall]
      | succ j =>
        simp only [argminIdx, if_pos hall, List.get_cons_zero, List.get_cons_succ]
        exact hmem _ (List.get_mem ds _ _)
    · have hne : ds ≠ [] := by
        intro hnil; subst hnil; simp at hall
      have hlt : argminIdx ds < ds.length := argminIdx_lt_length ds hne
      have hwit : ∃ x ∈ ds, ¬ d ≤ x := by
        by_contra hcon
        push_neg at hcon
        exact hall (List.all_eq_true.mpr (fun x hx => decide_eq_true (hcon x hx)))
      obtain ⟨x, hxmem, hxlt⟩ := hwit
      push_neg at hxlt
      obtain ⟨k, hk⟩ := List.get_of_mem hxmem
      have hminx : ds.get ⟨argminIdx ds, hlt⟩ ≤ x := by
        rw [← hk]; exact ih hlt k.1 k.2
      cases j with
      | zero =>
        simp only [argminIdx, if_neg hall, List.get_cons_succ, List.get_cons_zero]
        exact le_of_lt (lt_of_le_of_lt hminx hxlt)
      | succ j =>
        simp only [argminIdx, if_neg hall, List.get_cons_succ]
        exact ih hlt j (by simpa using Nat.lt_of_succ_lt_succ hj)

theorem argminIdx_first (l : List ℚ) (hal : argminIdx l < l.length)
    (j : Nat) (hj : j < argminIdx l) :
    l.get ⟨argminIdx l, hal⟩ < l.get ⟨j, Nat.lt_trans hj hal⟩ := by
  induction l generalizing j with
  | nil => simp at hal
  | cons d ds ih =>
    by_cases hall : ds.all (fun x => d ≤ x)
    · simp only [argminIdx, if_pos hall] at hj
      omega
    · have hne : ds ≠ [] := by
        intro hnil; subst hnil; simp at hall
      have hlt : argminIdx ds < ds.length := argminIdx_lt_length ds hne
      have hwit : ∃ x ∈ ds, ¬ d ≤ x := by
        by_contra hcon
        push_neg at hcon
        exact hall (List.all_eq_true.mpr (fun x hx => decide_eq_true (hcon x hx)))
      obtain ⟨x, hxmem, hxlt⟩ := hwit
      push_neg at hxlt
      obtain ⟨k, hk⟩ := List.get_of_mem hxmem
      have hminx : ds.get ⟨argminIdx ds, hlt⟩ ≤ x := by
        rw [← hk]; exact argminIdx_le ds hlt k.1 k.2
      cases j with
      | zero =>
        simp only [argminIdx, if_neg hall, List.get_cons_succ, List.get_cons_zero]
        exact lt_of_le_of_lt hminx hxlt
      | succ j =>
        simp only [argminIdx, if_neg hall] at hj ⊢
        simp only [List.get_cons_succ]
        exact ih hlt j (Nat.lt_of_succ_lt_succ hj)


/-- The nearest-neighbour contract for `FaceRecognition.predict`: some gallery
index `i` is selected, the name at `i` is returned, `i` achieves the minimum
Euclidean distance to the query, and `i` is the first (lowest) index to do so. -/
def NearestSpec (embs : List (List ℚ)) (names : List String)
    (query : List ℚ) : Prop :=
  ∃ i, ∃ hi : i < embs.length, i < names.length ∧
    predict embs names query = names.get? i ∧
    (∀ j, ∀ hj : j < embs.length,
      eucl query (embs.get ⟨i, hi⟩) ≤ eucl query (embs.get ⟨j, hj⟩)) ∧
    ∀ j, ∀ hj : j < i,
      eucl query (embs.get ⟨i, hi⟩) < eucl query (embs.get ⟨j, Nat.lt_trans hj hi⟩)

/-- C1: for every gallery and query, the matcher returns the name at the
gallery index whose embedding has minimum Euclidean distance to the query,
taking the first (lowest) index on ties; in particular, for the gallery
`[(e0,"A"), (e1,"B"), (e2,"A")]` a query equal to `e1` (at positive distance
from `e0`) yields `"B"`, and a query equidistant from `e0` and `e2` (and no
farther from them than from `e1`) yields `"A"` via index 0. -/
theorem predict_nearest_first
    (embs : List (List ℚ)) (names : List String) (query : List ℚ)
    (hne : embs ≠ []) (hlen : embs.length ≤ names.length)
    (e0 e1 e2 q2 : List ℚ) (nA nB : String)
    (h10 : 0 < eucl e1 e0)
    (heq : eucl q2 e0 = eucl q2 e2) (hmin : eucl q2 e0 ≤ eucl q2 e1) :
    NearestSpec embs names query
    ∧ predict [e0, e1, e2] [nA, nB, nA] e1 = some nB
    ∧ predict [e0, e1, e2] [nA, nB, nA] q2 = some nA := by
  refine ⟨?_, ?_, ?_⟩
  · set dists := embs.map (fun e => dist2 query e) with hdists
    have hdne : dists ≠ [] := by
      simp only [hdists, ne_eq, List.map_eq_nil_iff]
      exact hne
    have hlen' : dists.length = embs.length := List.length_map _ _
    have hal : argminIdx dists < dists.length := argminIdx_lt_length dists hdne
    have hi : argminIdx dists < embs.length := hlen' ▸ hal
    have hempty : embs.isEmpty = false := by
      simp [List.isEmpty_iff, hne]
    have hget : ∀ (k : Nat) (hk : k < embs.length),
        dists.get ⟨k, hlen' ▸ hk⟩ = dist2 query (embs.get ⟨k, hk⟩) := by
      intro k hk
      simp [hdists]
    refine ⟨argminIdx dists, hi, Nat.lt_of_lt_of_le hi hlen, ?_, ?_, ?_⟩
    · simp [predict, hempty, hdists]
    · intro j hj
      rw [eucl_le_iff]
      have := argminIdx_le dists hal j (hlen' ▸ hj)
      rwa [hget _ hi, hget _ hj] at this
    · intro j hj
      rw [eucl_lt_iff]
      have := argminIdx_first dists hal j hj
      rwa [hget _ hi, hget _ (Nat.lt_trans hj hi)] at this
  · have hd0 : 0 < dist2 e1 e0 := (eucl_pos_iff _ _).mp h10
    have hd2 : 0 ≤ dist2 e1 e2 := dist2_nonneg _ _
    have hno : ¬ (dist2 e1 e0 ≤ 0) := not_le.mpr hd0
    simp [predict, argminIdx, dist2_self, hno, hd2]
  · have ha : dist2 q2 e0 = dist2 q2 e2 := (eucl_eq_iff _ _ _).mp heq
    have hb : dist2 q2 e0 ≤ dist2 q2 e1 := (eucl_le_iff _ _ _).mp hmin
    have hc : dist2 q2 e0 ≤ dist2 q2 e2 := le_of_eq ha
    simp [predict, argminIdx, hb, hc]

/-- Closed instance of `predict_nearest_first` at a concrete gallery. -/
theorem predict_nearest_first_witness :
    (0 : ℝ) < eucl [5] [0] ∧ eucl [1] [0] = eucl [1] [2] ∧
    eucl [1] [0] ≤ eucl [1] [5] ∧
    (NearestSpec [[(0 : ℚ)], [5], [2]] ["A", "B", "A"] [5]
     ∧ predict [[(0 : ℚ)], [5], [2]] ["A", "B", "A"] [5] = some "B"
     ∧ predict [[(0 : ℚ)], [5], [2]] ["A", "B", "A"] [1] = some "A") := by
  have h10 : (0 : ℝ) < eucl [5] [0] := by
    rw [eucl_pos_iff]
    norm_num [dist2]
  have heq : eucl [1] [0] = eucl [1] [2] := by
    rw [eucl_eq_iff]
    norm_num [dist2]
  have hmin : eucl [1] [0] ≤ eucl [1] [5] := by
    rw [eucl_le_iff]
    norm_num [dist2]
  exact ⟨h10, heq, hmin,
    predict_nearest_first [[(0 : ℚ)], [5], [2]] ["A", "B", "A"] [5]
      (by simp) (by simp) [0] [5] [2] [1] "A" "B" h10 heq hmin⟩

/-- Minimum of a single list of values (0 on the empty list, a junk value
guarded by callers: torch raises there). -/
def cmin : List ℚ → ℚ
  | [] => 0
  | x :: xs => xs.foldl min x

/-- Maximum of a single list of values (0 on the empty list). -/
def cmax : List ℚ → ℚ
  | [] => 0
  | x :: xs => xs.foldl max x

/-- Model of `tensor.min()` in torch: the minimum over all elements of all channels. -/
def tmin (t : List (List ℚ)) : ℚ := cmin t.flatten

/-- Model of `tensor.max()` in torch: the maximum over all elements of all channels. -/
def tmax (t : List (List ℚ)) : ℚ := cmax t.flatten

/-- The crop-normalization step of `FaceDetection.detect_face`
(fd_lambda.py lines 45-47):
`face_img = face_tensor - face_tensor.min()`,
`denom = face_img.max() - face_img.min()`,
`face_img = (face_img / denom * 255) if denom > 0 else face_img * 0`.
The minima and maxima are over the whole tensor, all channels at once. -/
def normalizeCrop (t : List (List ℚ)) : List (List ℚ) :=
  let shifted := t.map (fun ch => ch.map (fun v => v - tmin t))
  let denom := tmax shifted - tmin shifted
  if 0 < denom then shifted.map (fun ch => ch.map (fun v => v / denom * 255))
  else shifted.map (fun ch => ch.map (fun v => v * 0))

/-- The per-channel normalization described by the spec (refinement comparison
definition following the spec's words, to be measured against `normalizeCrop`):
each channel separately has its own minimum subtracted and is divided by its
own `(max - min)`, scaled to `[0, 255]`; a flat channel maps to zero. -/
def perChannelNorm (t : List (List ℚ)) : List (List ℚ) :=
  t.map (fun ch =>
    if cmin ch < cmax ch then
      ch.map (fun v => (v - cmin ch) / (cmax ch - cmin ch) * 255)
    else ch.map (fun _ => 0))

theorem foldl_min_le_init (xs : List ℚ) (a : ℚ) : xs.foldl min a ≤ a := by
  induction xs generalizing a with
  | nil => simp
  | cons x xs ih => exact le_trans (ih _) (min_le_left a x)

theorem foldl_min_le_mem (xs : List ℚ) (a v : ℚ) (hv : v ∈ xs) :
    xs.foldl min a ≤ v := by
  induction xs generalizing a with
  | nil => simp at hv
  | cons x xs ih =>
    rcases List.mem_cons.mp hv with h | h
    · subst h
      exact le_trans (foldl_min_le_init xs _) (min_le_right a v)
    · exact ih _ h

theorem init_le_foldl_max (xs : List ℚ) (a : ℚ) : a ≤ xs.foldl max a := by
  induction xs generalizing a with
  | nil => simp
  | cons x xs ih => exact le_trans (le_max_left a x) (ih _)

theorem mem_le_foldl_max (xs : List ℚ) (a v : ℚ) (hv : v ∈ xs) :
    v ≤ xs.foldl max a := by
  induction xs generalizing a with
  | nil => simp at hv
  | cons x xs ih =>
    rcases List.mem_cons.mp hv with h | h
    · subst h
      exact le_trans (le_max_right a v) (init_le_foldl_max xs _)
    · exact ih _ h

theorem cmin_le (l : List ℚ) (v : ℚ) (hv : v ∈ l) : cmin l ≤ v := by
  cases l with
  | nil => simp at hv
  | cons x xs =>
    rcases List.mem_cons.mp hv with h | h
    · subst h
      exact foldl_min_le_init xs v
    · exact foldl_min_le_mem xs x v h

theorem le_cmax (l : List ℚ) (v : ℚ) (hv : v ∈ l) : v ≤ cmax l := by
  cases l with
  | nil => simp at hv
  | cons x xs =>
    rcases List.mem_cons.mp hv with h | h
    · subst h
      exact init_le_foldl_max xs v
    · exact mem_le_foldl_max xs x v h

theorem foldl_min_map_sub (xs : List ℚ) (a c : ℚ) :
    (xs.map (fun v => v - c)).foldl min (a - c) = xs.foldl min a - c := by
  induction xs generalizing a with
  | nil => simp
  | cons x xs ih =>
    simp only [List.map_cons, List.foldl_cons, min_sub_sub_right]
    exact ih _

theorem foldl_max_map_sub (xs : List ℚ) (a c : ℚ) :
    (xs.map (fun v => v - c)).foldl max (a - c) = xs.foldl max a - c := by
  induction xs generalizing a with
  | nil => simp
  | cons x xs ih =>
    simp only [List.map_cons, List.foldl_cons, max_sub_sub_right]
    exact ih _

theorem cmin_map_sub (l : List ℚ) (c : ℚ) :
    cmin (l.map (fun v => v - c)) = if l = [] then 0 else cmin l - c := by
  cases l with
  | nil => simp [cmin]
  | cons x xs => simp [cmin, foldl_min_map_sub]

theorem cmax_map_sub (l : List ℚ) (c : ℚ) :
    cmax (l.map (fun v => v - c)) = if l = [] then 0 else cmax l - c := by
  cases l with
  | nil => simp [cmax]
  | cons x xs => simp [cmax, foldl_max_map_sub]

theorem shifted_flatten (t : List (List ℚ)) (c : ℚ) :
    (t.map (fun ch => ch.map (fun v => v - c))).flatten =
      t.flatten.map (fun v => v - c) := by
  simp [List.map_flatten]

theorem normalizeCrop_denom (t : List (List ℚ)) (hne : t.flatten ≠ []) :
    tmax (t.map (fun ch => ch.map (fun v => v - tmin t))) -
      tmin (t.map (fun ch => ch.map (fun v => v - tmin t))) =
      tmax t - tmin t := by
  unfold tmax tmin
  rw [shifted_flatten, cmax_map_sub, cmin_map_sub, if_neg hne, if_neg hne]
  ring

theorem normalizeCrop_eq (t : List (List ℚ)) (hne : t.flatten ≠ []) :
    normalizeCrop t =
      if 0 < tmax t - tmin t then
        t.map (fun ch => ch.map (fun v =>
          (v - tmin t) / (tmax t - tmin t) * 255))
      else t.map (fun ch => ch.map (fun v => (v - tmin t) * 0)) := by
  unfold normalizeCrop
  dsimp only
  rw [normalizeCrop_denom t hne]
  split
  · simp [List.map_map, Function.comp]
  · simp [List.map_map, Function.comp]

/-- C2 (amended): crop normalization is computed globally over the whole
tensor, all channels at once — subtract the global minimum, divide by the
global `(max - min)`, scale by 255; whenever the global `max > min` every
output pixel lies in `[0, 255]`, and whenever the global `max == min` (a
flat/constant crop) the output crop is uniformly zero. -/
theorem normalizeCrop_range (t : List (List ℚ)) (hne : t.flatten ≠ []) :
    (tmin t < tmax t → ∀ ch ∈ normalizeCrop t, ∀ v ∈ ch, 0 ≤ v ∧ v ≤ 255) ∧
    (tmin t = tmax t → ∀ ch ∈ normalizeCrop t, ∀ v ∈ ch, v = 0) := by
  constructor
  · intro hlt ch hch v hv
    rw [normalizeCrop_eq t hne, if_pos (sub_pos.mpr hlt)] at hch
    obtain ⟨ch0, hch0, rfl⟩ := List.mem_map.mp hch
    obtain ⟨w, hw, rfl⟩ := List.mem_map.mp hv
    have hmem : w ∈ t.flatten := List.mem_flatten.mpr ⟨ch0, hch0, hw⟩
    have hlow : tmin t ≤ w := cmin_le t.flatten w hmem
    have hhigh : w ≤ tmax t := le_cmax t.flatten w hmem
    have hpos : (0 : ℚ) < tmax t - tmin t := sub_pos.mpr hlt
    have h0 : 0 ≤ (w - tmin t) / (tmax t - tmin t) :=
      div_nonneg (by linarith) (le_of_lt hpos)
    have h1 : (w - tmin t) / (tmax t - tmin t) ≤ 1 := by
      rw [div_le_one hpos]
      linarith
    constructor <;> nlinarith
  · intro heqv ch hch v hv
    rw [normalizeCrop_eq t hne, if_neg (by rw [heqv]; simp)] at hch
    obtain ⟨ch0, hch0, rfl⟩ := List.mem_map.mp hch
    obtain ⟨w, hw, rfl⟩ := List.mem_map.mp hv
    ring

/-- C2 fails as stated: on the two-channel crop `[[0, 1], [0, 2]]` the code
normalizes globally, producing `[[0, 255/2], [0, 255]]`, while the claimed
per-channel rule would produce `[[0, 255], [0, 255]]`. -/
theorem normalizeCrop_ne_perChannel :
    normalizeCrop [[0, 1], [0, 2]] = [[0, 255 / 2], [0, 255]] ∧
    perChannelNorm [[0, 1], [0, 2]] = [[0, 255], [0, 255]] ∧
    normalizeCrop [[0, 1], [0, 2]] ≠ perChannelNorm [[0, 1], [0, 2]] := by
  refine ⟨?_, ?_, ?_⟩
  · norm_num [normalizeCrop, tmin, tmax, cmin, cmax]
  · norm_num [perChannelNorm, cmin, cmax]
  · norm_num [normalizeCrop, perChannelNorm, tmin, tmax, cmin, cmax]

/-- Closed instance of `normalizeCrop_range` at a concrete crop. -/
theorem normalizeCrop_range_witness :
    ([[(0 : ℚ), 1], [0, 2]] : List (List ℚ)).flatten ≠ [] ∧
    ((tmin [[(0 : ℚ), 1], [0, 2]] < tmax [[(0 : ℚ), 1], [0, 2]] →
        ∀ ch ∈ normalizeCrop [[(0 : ℚ), 1], [0, 2]], ∀ v ∈ ch, 0 ≤ v ∧ v ≤ 255) ∧
     (tmin [[(0 : ℚ), 1], [0, 2]] = tmax [[(0 : ℚ), 1], [0, 2]] →
        ∀ ch ∈ normalizeCrop [[(0 : ℚ), 1], [0, 2]], ∀ v ∈ ch, v = 0)) :=
  ⟨by simp, normalizeCrop_range [[(0 : ℚ), 1], [0, 2]] (by simp)⟩

/-- The part of `os.path.basename`: the segment after the last `/`. -/
def basenameChars (cs : List Char) : List Char :=
  (cs.reverse.takeWhile (fun c => c ≠ '/')).reverse

/-- Model of `os.path.splitext(b)[0]` for a base name `b`: drop the extension, the
suffix starting at the last dot, except that dots leading the name do not
begin an extension. -/
def splitextRootChars (cs : List Char) : List Char :=
  let lead := cs.takeWhile (fun c => c = '.')
  let rest := cs.drop lead.length
  if rest.contains '.' then
    lead ++ (rest.reverse.drop ((rest.reverse.takeWhile (fun c => c ≠ '.')).length + 1)).reverse
  else cs

/-- Model of `s.split(".")[0]`: the segment before the first dot. -/
def splitFirstChars (cs : List Char) : List Char :=
  cs.takeWhile (fun c => c ≠ '.')

/-- fd_lambda.py line 51:
`key = os.path.splitext(os.path.basename(input_image_path))[0].split(".")[0]`.
Note its argument is the path of the *temporary* input file the handler wrote,
not the request's `filename` field. -/
def stemKey (p : String) : String :=
  String.mk (splitFirstChars (splitextRootChars (basenameChars p.data)))


/-- The fields the ingestion handler reads from the request body
(`body.get("request_id")` etc.); `none` models an absent key. -/
structure ReqDict where
  request_id : Option String
  filename : Option String
  content : Option String
deriving DecidableEq

/-- The raw request body: either already a dict (Lambda Function URL) or a
JSON string (API Gateway), whose parse outcome models `json.loads` — `none`
stands for a raised `json.JSONDecodeError`. -/
inductive BodyRaw
  | dict (d : ReqDict)
  | jsonStr (parse : Option ReqDict)
deriving DecidableEq

/-- The ingestion event; `body = none` models a missing `"body"` key. -/
structure FdEvent where
  body : Option BodyRaw
deriving DecidableEq

/-- Python truthiness test `not x` for an optional string field: true when
the key is absent or the value is the empty string. -/
def falsy : Option String → Bool
  | none => true
  | some s => s.isEmpty

/-- Outcome of `detector.detect_face` on the decoded bytes: an exception
(e.g. `PIL` failing to parse the bytes), no face, or a face crop written to
the output directory (with the given file contents). -/
inductive DetectResult
  | error
  | noFace
  | face (crop : List Nat)
deriving DecidableEq

/-- The response body dict before `json.dumps`: `{"message": ...}` on the
success paths, `{"error": ...}` from `_bad_request`. -/
inductive RespBody
  | message (s : String)
  | error (s : String)
deriving DecidableEq

/-- An HTTP-style response `{"statusCode": ..., "body": ...}`. -/
structure Response where
  statusCode : Nat
  body : RespBody
deriving DecidableEq

/-- The helper `_bad_request(message, status)` (fd_lambda.py lines 58-63). -/
def bad_request (message : String) (status : Nat := 400) : Response :=
  ⟨status, RespBody.error message⟩

/-- A request-queue handoff message `{"request_id": ..., "face": ...}`. -/
structure Msg where
  request_id : String
  face : String
deriving DecidableEq

/-- The external collaborators of the ingestion handler, passed as oracles:
`b64decode` is `base64.b64decode` (`none` = raised `binascii.Error`),
`detect` the face detector on the decoded bytes, `b64encode` is
`base64.b64encode` on the crop file's bytes, `sendOk` the outcome of
`sqs.send_message` (`false` = raised `BotoCoreError`/`ClientError`), and
`tmpName`/`tmpDir` the names produced by `tempfile.NamedTemporaryFile` and
`tempfile.mkdtemp`. -/
structure FdEnv where
  b64decode : String → Option (List Nat)
  detect : List Nat → DetectResult
  b64encode : List Nat → String
  sendOk : Bool
  tmpName : String
  tmpDir : String

/-- The observable outcome of one ingestion invocation: the returned
response, the messages enqueued on the request queue, the temporary files
still on disk when the handler returns, and the path of the crop artifact
written by `detect_face` (if any), kept for the naming claim. -/
structure FdOutcome where
  response : Response
  sent : List Msg
  files : List String
  cropPath : Option String
deriving DecidableEq

/-- Line 79 of fd_lambda.py,
`body_raw if isinstance(body_raw, dict) else json.loads(body_raw)`:
a dict body is used as is, a string body is parsed. -/
def rawParse : BodyRaw → Option ReqDict
  | BodyRaw.dict d => some d
  | BodyRaw.jsonStr p => p

/-- The function `lambda_handler` of fd_lambda.py (lines 65-138), with the external calls
abstracted by `env`.  Control flow follows the source: missing body and
unparseable JSON return 400; missing/empty fields return 400 before any file
is written; `tempfile.NamedTemporaryFile` creates the input file and a
failing `base64.b64decode` then raises out of the `with` block, reaching the
outer `except Exception` (500) with the input file never removed; a raising
`detect_face` likewise leaves the input file behind; the no-face path removes
the input and returns 200; on a detected face the crop is written under
`stemKey` of the temporary input path, the handoff message is sent (502 on
queue failure), and the crop is removed in the `finally` block. -/
def fd_lambda_handler (ev : FdEvent) (env : FdEnv) : FdOutcome :=
  match ev.body with
  | none => ⟨bad_request "Missing request body", [], [], none⟩
  | some raw =>
    match rawParse raw with
    | none => ⟨bad_request "Request body must be valid JSON", [], [], none⟩
    | some body =>
      if falsy body.request_id || falsy body.filename || falsy body.content then
        ⟨bad_request "Missing one or more required fields: request_id, filename, content",
          [], [], none⟩
      else
        let input_path := env.tmpName
        match env.b64decode (body.content.getD "") with
        | none => ⟨bad_request "Unhandled error" 500, [], [input_path], none⟩
        | some bytes =>
          match env.detect bytes with
          | DetectResult.error =>
            ⟨bad_request "Unhandled error" 500, [], [input_path], none⟩
          | DetectResult.noFace =>
            ⟨⟨200, RespBody.message "No face detected."⟩, [], [], none⟩
          | DetectResult.face crop =>
            let out_path := env.tmpDir ++ "/" ++ stemKey input_path ++ "_face.jpg"
            let msg : Msg := ⟨body.request_id.getD "", env.b64encode crop⟩
            if env.sendOk then
              ⟨⟨200, RespBody.message "Face detection complete and request enqueued."⟩,
                [msg], [], some out_path⟩
            else
              ⟨bad_request "Failed to enqueue message" 502, [], [], some out_path⟩

/-- The keys the recognition handler reads from a record's parsed body:
`payload["request_id"]` and `payload["face"]`; `none` models an absent key
(a raised `KeyError`). -/
structure FrPayload where
  request_id : Option String
  face : Option String
deriving DecidableEq

/-- A consumed SQS record: `json.loads(record["body"])` either succeeds with
a payload dict or raises `json.JSONDecodeError`. -/
inductive FrRecord
  | ok (p : FrPayload)
  | badJson
deriving DecidableEq

/-- The recognition-stage event; `records = none` models an event without a
`"Records"` key, which `event.get("Records", [])` treats as the empty batch. -/
structure FrEvent where
  records : Option (List FrRecord)

/-- A response-queue result message `{"request_id": ..., "result": ...}`. -/
structure Msg2 where
  request_id : String
  result : String
deriving DecidableEq

/-- The external collaborators of the recognition handler: `b64decode` as in
the ingestion stage, `predictO` the outcome of `recognizer.predict` on the
decoded crop bytes (`none` = a raised exception, e.g. model load failure or
`np.argmin` on an empty gallery), `sendOk` the response-queue send outcome,
and `tmpName i` the temporary file name used for the `i`-th record. -/
structure FrEnv where
  b64decode : String → Option (List Nat)
  predictO : List Nat → Option String
  sendOk : Bool
  tmpName : Nat → String

/-- Result of processing one record in the loop body of fr_lambda.py
(lines 64-95): at most one result message, the temp files left behind, and
the log lines printed by the `except` clauses. -/
structure RecResult where
  msg : Option Msg2
  leaked : List String
  logs : List String
deriving DecidableEq

/-- The loop body of fr_lambda.py's `lambda_handler` for a single record.
`json.loads` failure and a missing key are caught by
`except (KeyError, json.JSONDecodeError)` before any file is written; a
failing `base64.b64decode` raises inside the `with` block while `face_path`
is still `None`, so the `finally` clause removes nothing and the created
temp file leaks; a raising `predict` is caught by `except Exception`; a
failing `sqs.send_message` is caught by `except (BotoCoreError, ClientError)`;
in these last three cases the `finally` clause removes the temp file. -/
def processRecord (env : FrEnv) (idx : Nat) (r : FrRecord) : RecResult :=
  match r with
  | FrRecord.badJson => ⟨none, [], ["[WARN] Bad record payload"]⟩
  | FrRecord.ok p =>
    match p.request_id with
    | none => ⟨none, [], ["[WARN] Bad record payload"]⟩
    | some rid =>
      match p.face with
      | none => ⟨none, [], ["[WARN] Bad record payload"]⟩
      | some face_b64 =>
        let face_path := env.tmpName idx
        match env.b64decode face_b64 with
        | none => ⟨none, [face_path], ["[ERROR] Processing failure"]⟩
        | some bytes =>
          match env.predictO bytes with
          | none => ⟨none, [], ["[ERROR] Processing failure"]⟩
          | some label =>
            if env.sendOk then ⟨some ⟨rid, label⟩, [], []⟩
            else ⟨none, [], ["[ERROR] SQS error"]⟩

/-- The observable outcome of one recognition invocation. -/
structure FrOutcome where
  response : Response
  sent : List Msg2
  files : List String
  logs : List String

/-- The function `lambda_handler` of fr_lambda.py (lines 57-97): iterates the batch of
records sequentially, each record processed by `processRecord` with its own
`try`/`except`/`finally`, then returns the fixed 200 response. -/
def fr_lambda_handler (ev : FrEvent) (env : FrEnv) : FrOutcome :=
  let recs := ev.records.getD []
  let results := recs.enum.map (fun p => processRecord env p.1 p.2)
  { response := ⟨200, RespBody.message "Face recognition completed."⟩
    sent := results.filterMap (fun r => r.msg)
    files := (results.map (fun r => r.leaked)).flatten
    logs := (results.map (fun r => r.logs)).flatten }

/-- A consumed record is malformed exactly when `json.loads` raises or one of
the two keys is absent — the situations caught by
`except (KeyError, json.JSONDecodeError)`. -/
def malformed : FrRecord → Bool
  | FrRecord.badJson => true
  | FrRecord.ok p => p.request_id.isNone || p.face.isNone

/-- The per-record result message, which does not depend on the record's
position in the batch. -/
def recordMsg (env : FrEnv) (r : FrRecord) : Option Msg2 :=
  (processRecord env 0 r).msg

theorem processRecord_msg_idx (env : FrEnv) (i : Nat) (r : FrRecord) :
    (processRecord env i r).msg = recordMsg env r := by
  unfold recordMsg
  cases r with
  | badJson => rfl
  | ok p =>
    cases hrid : p.request_id with
    | none => simp [processRecord, hrid]
    | some rid =>
      cases hface : p.face with
      | none => simp [processRecord, hrid, hface]
      | some f =>
        cases hdec : env.b64decode f with
        | none => simp [processRecord, hrid, hface, hdec]
        | some bytes =>
          cases hpred : env.predictO bytes with
          | none => simp [processRecord, hrid, hface, hdec, hpred]
          | some label =>
            by_cases hsend : env.sendOk <;>
              simp [processRecord, hrid, hface, hdec, hpred, hsend]

theorem malformed_msg_none (env : FrEnv) (i : Nat) (r : FrRecord)
    (h : malformed r = true) : (processRecord env i r).msg = none := by
  cases r with
  | badJson => rfl
  | ok p =>
    simp only [malformed, Bool.or_eq_true, Option.isNone_iff_eq_none] at h
    rcases h with h | h
    · simp [processRecord, h]
    · cases hrid : p.request_id with
      | none => simp [processRecord, hrid]
      | some rid => simp [processRecord, hrid, h]

theorem malformed_logged (env : FrEnv) (i : Nat) (r : FrRecord)
    (h : malformed r = true) :
    (processRecord env i r).logs = ["[WARN] Bad record payload"] := by
  cases r with
  | badJson => rfl
  | ok p =>
    simp only [malformed, Bool.or_eq_true, Option.isNone_iff_eq_none] at h
    rcases h with h | h
    · simp [processRecord, h]
    · cases hrid : p.request_id with
      | none => simp [processRecord, hrid]
      | some rid => simp [processRecord, hrid, h]

theorem fr_sent_eq_filterMap (env : FrEnv) (rs : List FrRecord) :
    (fr_lambda_handler ⟨some rs⟩ env).sent = rs.filterMap (recordMsg env) := by
  show ((List.enumFrom 0 rs).map (fun p => processRecord env p.1 p.2)).filterMap
        (fun r => r.msg) = rs.filterMap (recordMsg env)
  generalize 0 = n
  induction rs generalizing n with
  | nil => rfl
  | cons r rs ih =>
    simp only [List.enumFrom, List.map_cons, List.filterMap_cons,
      processRecord_msg_idx]
    cases recordMsg env r with
    | none => exact ih (n + 1)
    | some m => rw [ih (n + 1)]

/-- Concrete fixture: an environment whose detector finds no face. -/
def envNoFace : FdEnv :=
  ⟨fun _ => some [65, 66, 67], fun _ => DetectResult.noFace, fun _ => "",
    true, "/tmp/tmpw3z9q.jpg", "/tmp/facedir"⟩

/-- Concrete fixture: an environment whose detector finds a face and whose
queue send succeeds. -/
def envFace : FdEnv :=
  ⟨fun _ => some [65, 66, 67], fun _ => DetectResult.face [9, 9],
    fun _ => "ZmFjZQ==", true, "/tmp/tmpw3z9q.jpg", "/tmp/facedir"⟩

/-- Concrete fixture: an environment whose `base64.b64decode` raises. -/
def envDecodeFail : FdEnv :=
  ⟨fun _ => none, fun _ => DetectResult.noFace, fun _ => "",
    true, "/tmp/tmpw3z9q.jpg", "/tmp/facedir"⟩

/-- Concrete fixture: a request with the `filename` field absent. -/
def evMissing : FdEvent := ⟨some (BodyRaw.dict ⟨some "r1", none, some "QUJD"⟩)⟩

/-- Concrete fixture: a complete request with filename `alice.jpg`. -/
def evAlice : FdEvent :=
  ⟨some (BodyRaw.dict ⟨some "r1", some "alice.jpg", some "QUJD"⟩)⟩

/-- Concrete fixture: the same request but with filename `bob.png`. -/
def evBob : FdEvent :=
  ⟨some (BodyRaw.dict ⟨some "r1", some "bob.png", some "QUJD"⟩)⟩

/-- C3: for every ingestion request whose `request_id`, `filename` or
`content` is absent or empty, the handler returns a 400 response and
enqueues no handoff message. -/
theorem fd_missing_fields (ev : FdEvent) (env : FdEnv) (raw : BodyRaw)
    (d : ReqDict) (hb : ev.body = some raw) (hp : rawParse raw = some d)
    (hf : (falsy d.request_id || falsy d.filename || falsy d.content) = true) :
    (fd_lambda_handler ev env).response.statusCode = 400 ∧
    (fd_lambda_handler ev env).sent = [] := by
  simp [fd_lambda_handler, hb, hp, hf, bad_request]

/-- Closed instance of `fd_missing_fields` on a request lacking `filename`. -/
theorem fd_missing_fields_witness :
    evMissing.body = some (BodyRaw.dict ⟨some "r1", none, some "QUJD"⟩) ∧
    rawParse (BodyRaw.dict ⟨some "r1", none, some "QUJD"⟩) =
      some ⟨some "r1", none, some "QUJD"⟩ ∧
    (falsy (some "r1") || falsy none || falsy (some "QUJD")) = true ∧
    ((fd_lambda_handler evMissing envNoFace).response.statusCode = 400 ∧
     (fd_lambda_handler evMissing envNoFace).sent = []) :=
  ⟨rfl, rfl, rfl, fd_missing_fields evMissing envNoFace _ _ rfl rfl rfl⟩

/-- C4 fails as stated: the request `evAlice` whose `content` does not decode
(the decode oracle raises, as `base64.b64decode` does on malformed input) is
answered with the generic 500 response from the outer `except Exception`
handler, not a 400-class response. -/
theorem fd_bad_b64_counterexample :
    (fd_lambda_handler evAlice envDecodeFail).response.statusCode = 500 ∧
    ¬ ((fd_lambda_handler evAlice envDecodeFail).response.statusCode < 500) ∧
    (fd_lambda_handler evAlice envDecodeFail).sent = [] := by
  refine ⟨rfl, ?_, rfl⟩
  have h : (fd_lambda_handler evAlice envDecodeFail).response.statusCode = 500 := rfl
  rw [h]
  omega

/-- C4 (amended): a `content` field that fails base64 decoding does not crash
the process: the raised `binascii.Error` reaches the outer `except Exception`
clause, the handler returns the 500 "Unhandled error" response (not a
400-class client error), and no handoff message is enqueued. -/
theorem fd_bad_b64_500 (ev : FdEvent) (env : FdEnv) (raw : BodyRaw)
    (d : ReqDict) (hb : ev.body = some raw) (hp : rawParse raw = some d)
    (hf : (falsy d.request_id || falsy d.filename || falsy d.content) = false)
    (hdec : env.b64decode (d.content.getD "") = none) :
    (fd_lambda_handler ev env).response = bad_request "Unhandled error" 500 ∧
    (fd_lambda_handler ev env).sent = [] := by
  simp [fd_lambda_handler, hb, hp, hf, hdec]

/-- Closed instance of `fd_bad_b64_500`. -/
theorem fd_bad_b64_500_witness :
    evAlice.body = some (BodyRaw.dict ⟨some "r1", some "alice.jpg", some "QUJD"⟩) ∧
    rawParse (BodyRaw.dict ⟨some "r1", some "alice.jpg", some "QUJD"⟩) =
      some ⟨some "r1", some "alice.jpg", some "QUJD"⟩ ∧
    (falsy (some "r1") || falsy (some "alice.jpg") || falsy (some "QUJD")) = false ∧
    envDecodeFail.b64decode ((some "QUJD").getD "") = none ∧
    ((fd_lambda_handler evAlice envDecodeFail).response =
      bad_request "Unhandled error" 500 ∧
     (fd_lambda_handler evAlice envDecodeFail).sent = []) :=
  ⟨rfl, rfl, rfl, rfl, fd_bad_b64_500 evAlice envDecodeFail _ _ rfl rfl rfl rfl⟩

/-- C6: a request whose image contains no detectable face gets the 200
"No face detected." response and zero request-queue messages. -/
theorem fd_no_face (ev : FdEvent) (env : FdEnv) (raw : BodyRaw) (d : ReqDict)
    (bytes : List Nat) (hb : ev.body = some raw) (hp : rawParse raw = some d)
    (hf : (falsy d.request_id || falsy d.filename || falsy d.content) = false)
    (hdec : env.b64decode (d.content.getD "") = some bytes)
    (hdet : env.detect bytes = DetectResult.noFace) :
    (fd_lambda_handler ev env).response =
      ⟨200, RespBody.message "No face detected."⟩ ∧
    (fd_lambda_handler ev env).sent = [] := by
  simp [fd_lambda_handler, hb, hp, hf, hdec, hdet]

/-- Closed instance of `fd_no_face`. -/
theorem fd_no_face_witness :
    evAlice.body = some (BodyRaw.dict ⟨some "r1", some "alice.jpg", some "QUJD"⟩) ∧
    rawParse (BodyRaw.dict ⟨some "r1", some "alice.jpg", some "QUJD"⟩) =
      some ⟨some "r1", some "alice.jpg", some "QUJD"⟩ ∧
    (falsy (some "r1") || falsy (some "alice.jpg") || falsy (some "QUJD")) = false ∧
    envNoFace.b64decode ((some "QUJD").getD "") = some [65, 66, 67] ∧
    envNoFace.detect [65, 66, 67] = DetectResult.noFace ∧
    ((fd_lambda_handler evAlice envNoFace).response =
      ⟨200, RespBody.message "No face detected."⟩ ∧
     (fd_lambda_handler evAlice envNoFace).sent = []) :=
  ⟨rfl, rfl, rfl, rfl, rfl,
    fd_no_face evAlice envNoFace _ _ [65, 66, 67] rfl rfl rfl rfl rfl⟩

/-- Concrete fixture: a recognition environment where decode, predict and
send all succeed. -/
def frEnvOk : FrEnv :=
  ⟨fun _ => some [65, 66, 67], fun _ => some "alice", true,
    fun i => "/tmp/tmpr" ++ toString i ++ ".jpg"⟩

/-- Concrete fixture: a well-formed consumed record. -/
def recGood : FrRecord := FrRecord.ok ⟨some "r1", some "QUJD"⟩

/-- Concrete fixture: a second well-formed consumed record. -/
def recGood2 : FrRecord := FrRecord.ok ⟨some "r2", some "QUJD"⟩

/-- C5: per-record failure isolation in the recognition batch loop.  A
malformed record placed anywhere in the batch contributes no result message
and the rest of the batch is processed as if it were absent; in particular a
three-record batch whose second record is malformed yields exactly the two
result messages of the first and third records, and the malformed one is
logged. -/
theorem fr_batch_isolation (env : FrEnv) (rs1 rs2 : List FrRecord)
    (bad r1 r2 r3 : FrRecord) (m1 m3 : Msg2)
    (hbad : malformed bad = true)
    (h1 : recordMsg env r1 = some m1)
    (h2 : malformed r2 = true)
    (h3 : recordMsg env r3 = some m3) :
    (fr_lambda_handler ⟨some (rs1 ++ bad :: rs2)⟩ env).sent =
      (fr_lambda_handler ⟨some rs1⟩ env).sent ++
        (fr_lambda_handler ⟨some rs2⟩ env).sent ∧
    (fr_lambda_handler ⟨some [r1, r2, r3]⟩ env).sent = [m1, m3] ∧
    "[WARN] Bad record payload" ∈
      (fr_lambda_handler ⟨some [r1, r2, r3]⟩ env).logs := by
  have hbadm : recordMsg env bad = none := malformed_msg_none env 0 bad hbad
  have h2m : recordMsg env r2 = none := malformed_msg_none env 0 r2 h2
  refine ⟨?_, ?_, ?_⟩
  · rw [fr_sent_eq_filterMap, fr_sent_eq_filterMap, fr_sent_eq_filterMap,
      List.filterMap_append, List.filterMap_cons, hbadm]
  · rw [fr_sent_eq_filterMap]
    simp [List.filterMap_cons, h1, h2m, h3]
  · have hlog : (processRecord env 1 r2).logs = ["[WARN] Bad record payload"] :=
      malformed_logged env 1 r2 h2
    show "[WARN] Bad record payload" ∈
      (((List.enumFrom 0 [r1, r2, r3]).map
        (fun p => processRecord env p.1 p.2)).map (fun r => r.logs)).flatten
    simp only [List.enumFrom, List.map_cons, List.map_nil, List.flatten_cons,
      List.flatten_nil, hlog]
    simp

/-- Closed instance of `fr_batch_isolation`: batch `[good, badJson, good2]`. -/
theorem fr_batch_isolation_witness :
    malformed FrRecord.badJson = true ∧
    recordMsg frEnvOk recGood = some ⟨"r1", "alice"⟩ ∧
    recordMsg frEnvOk recGood2 = some ⟨"r2", "alice"⟩ ∧
    ((fr_lambda_handler ⟨some ([] ++ FrRecord.badJson :: [])⟩ frEnvOk).sent =
      (fr_lambda_handler ⟨some []⟩ frEnvOk).sent ++
        (fr_lambda_handler ⟨some []⟩ frEnvOk).sent ∧
     (fr_lambda_handler ⟨some [recGood, FrRecord.badJson, recGood2]⟩ frEnvOk).sent =
       [⟨"r1", "alice"⟩, ⟨"r2", "alice"⟩] ∧
     "[WARN] Bad record payload" ∈
       (fr_lambda_handler ⟨some [recGood, FrRecord.badJson, recGood2]⟩ frEnvOk).logs) :=
  ⟨rfl, rfl, rfl,
    fr_batch_isolation frEnvOk [] [] FrRecord.badJson recGood FrRecord.badJson
      recGood2 ⟨"r1", "alice"⟩ ⟨"r2", "alice"⟩ rfl rfl rfl rfl⟩

/-- A consumed record makes the recognition loop's `base64.b64decode` raise:
both keys are present but the face payload does not decode.  This is the one
situation in the loop body where the temp file was created on disk while
`face_path` is still `None`, so the `finally` clause removes nothing. -/
def decodeRaises (env : FrEnv) : FrRecord → Bool
  | FrRecord.badJson => false
  | FrRecord.ok p =>
    match p.request_id, p.face with
    | some _, some f => (env.b64decode f).isNone
    | _, _ => false

theorem processRecord_leaked_nil (env : FrEnv) (i : Nat) (r : FrRecord)
    (h : decodeRaises env r = false) : (processRecord env i r).leaked = [] := by
  cases r with
  | badJson => rfl
  | ok p =>
    cases hrid : p.request_id with
    | none => simp [processRecord, hrid]
    | some rid =>
      cases hface : p.face with
      | none => simp [processRecord, hrid, hface]
      | some f =>
        cases hdec : env.b64decode f with
        | none => simp [decodeRaises, hrid, hface, hdec] at h
        | some bytes =>
          cases hpred : env.predictO bytes with
          | none => simp [processRecord, hrid, hface, hdec, hpred]
          | some label =>
            by_cases hsend : env.sendOk <;>
              simp [processRecord, hrid, hface, hdec, hpred, hsend]

theorem fr_files_nil (env : FrEnv) (rs : List FrRecord)
    (h : ∀ r ∈ rs, decodeRaises env r = false) :
    (fr_lambda_handler ⟨some rs⟩ env).files = [] := by
  show (((List.enumFrom 0 rs).map (fun p => processRecord env p.1 p.2)).map
    (fun r => r.leaked)).flatten = []
  generalize 0 = n
  induction rs generalizing n with
  | nil => rfl
  | cons r rs ih =>
    simp only [List.enumFrom, List.map_cons, List.flatten_cons]
    rw [processRecord_leaked_nil env n r (h r (by simp)),
      ih (fun r' hr' => h r' (by simp [hr'])) (n + 1)]
    rfl

theorem fd_files_cases (ev : FdEvent) (env : FdEnv) :
    (fd_lambda_handler ev env).files = [] ∨
    (fd_lambda_handler ev env).response.statusCode = 500 := by
  rcases ev with ⟨_ | raw⟩
  · left; rfl
  · cases hp : rawParse raw with
    | none => left; simp [fd_lambda_handler, hp]
    | some d =>
      cases hf : (falsy d.request_id || falsy d.filename || falsy d.content) with
      | true => left; simp [fd_lambda_handler, hp, hf]
      | false =>
        cases hdec : env.b64decode (d.content.getD "") with
        | none => right; simp [fd_lambda_handler, hp, hf, hdec, bad_request]
        | some bytes =>
          cases hdet : env.detect bytes with
          | error => right; simp [fd_lambda_handler, hp, hf, hdec, hdet, bad_request]
          | noFace => left; simp [fd_lambda_handler, hp, hf, hdec, hdet]
          | face crop =>
            by_cases hs : env.sendOk <;>
              · left; simp [fd_lambda_handler, hp, hf, hdec, hdet, hs]

/-- C7 fails as stated: on the internal-error exit path taken when the
request's `content` fails base64 decoding, the temporary input file created
by `tempfile.NamedTemporaryFile` (the write into it is what raised) is still
on disk when the 500 response is returned — `input_path` was never assigned
and no cleanup runs.  The same pattern exists in the recognition loop. -/
theorem tmp_leak_counterexample :
    (fd_lambda_handler evAlice envDecodeFail).files = ["/tmp/tmpw3z9q.jpg"] ∧
    (fd_lambda_handler evAlice envDecodeFail).files ≠ [] ∧
    (fr_lambda_handler ⟨some [recGood]⟩
      ⟨fun _ => none, fun _ => some "alice", true, fun _ => "/tmp/tmpr0.jpg"⟩).files =
      ["/tmp/tmpr0.jpg"] := by
  exact ⟨rfl, by decide, rfl⟩

/-- C7 (amended): on every exit path other than an internal error raised
while materializing the decoded payload or running detection — that is, on
the success, no-face, validation-failure and queue-send-failure paths of the
ingestion stage (every path whose response is not the 500 one), and on every
recognition-loop path where `base64.b64decode` does not raise — all temporary
artifacts created for the request have been removed when processing
completes, and cleanup failures are swallowed (`os.remove` is wrapped in
`try/except OSError: pass`). -/
theorem cleanup_on_handled_paths (evD : FdEvent) (envD : FdEnv)
    (evR : FrEvent) (envR : FrEnv)
    (h500 : (fd_lambda_handler evD envD).response.statusCode ≠ 500)
    (hrec : ∀ r ∈ evR.records.getD [], decodeRaises envR r = false) :
    (fd_lambda_handler evD envD).files = [] ∧
    (fr_lambda_handler evR envR).files = [] := by
  constructor
  · rcases fd_files_cases evD envD with h | h
    · exact h
    · exact absurd h h500
  · obtain ⟨o⟩ := evR
    cases o with
    | none => rfl
    | some rs => exact fr_files_nil envR rs hrec

/-- Closed instance of `cleanup_on_handled_paths`. -/
theorem cleanup_on_handled_paths_witness :
    (fd_lambda_handler evAlice envNoFace).response.statusCode ≠ 500 ∧
    (∀ r ∈ (FrEvent.mk (some [recGood, FrRecord.badJson])).records.getD [],
      decodeRaises frEnvOk r = false) ∧
    ((fd_lambda_handler evAlice envNoFace).files = [] ∧
     (fr_lambda_handler ⟨some [recGood, FrRecord.badJson]⟩ frEnvOk).files = []) := by
  have h1 : (fd_lambda_handler evAlice envNoFace).response.statusCode ≠ 500 := by
    decide
  have h2 : ∀ r ∈ (FrEvent.mk (some [recGood, FrRecord.badJson])).records.getD [],
      decodeRaises frEnvOk r = false := by
    decide
  exact ⟨h1, h2, cleanup_on_handled_paths evAlice envNoFace _ frEnvOk h1 h2⟩

/-- C8: the persisted crop's name does NOT derive from the request's
`filename` field.  `detect_face` receives the temporary input path
(`/tmp/tmpXXXX.jpg` from `NamedTemporaryFile`) and derives `key` from it;
the validated `filename` field is never passed to it.  Two requests that
differ only in `filename` ("alice.jpg" vs "bob.png") produce the identically
named crop `tmpw3z9q_face.jpg`, where the filename stems "alice"/"bob" never
appear. -/
theorem crop_name_from_tmpfile :
    (fd_lambda_handler evAlice envFace).cropPath =
      some "/tmp/facedir/tmpw3z9q_face.jpg" ∧
    (fd_lambda_handler evBob envFace).cropPath =
      some "/tmp/facedir/tmpw3z9q_face.jpg" ∧
    stemKey "alice.jpg" = "alice" ∧ stemKey "bob.png" = "bob" ∧
    stemKey "/tmp/tmpw3z9q.jpg" = "tmpw3z9q" := by
  refine ⟨?_, ?_, by decide, by decide, by decide⟩ <;> decide

/-- C9: both stages copy the caller-supplied `request_id` into every message
they produce, unchanged.  Any handoff message enqueued by the ingestion
handler carries the request body's `request_id`, and any result message
published by the recognition handler carries the `request_id` of the consumed
record it came from. -/
theorem request_id_preserved (evD : FdEvent) (envD : FdEnv) (raw : BodyRaw)
    (d : ReqDict) (hb : evD.body = some raw) (hp : rawParse raw = some d)
    (evR : FrEvent) (envR : FrEnv) :
    (∀ m ∈ (fd_lambda_handler evD envD).sent, d.request_id = some m.request_id) ∧
    (∀ m ∈ (fr_lambda_handler evR envR).sent,
      ∃ r ∈ evR.records.getD [], ∃ p, r = FrRecord.ok p ∧
        p.request_id = some m.request_id) := by
  constructor
  · intro m hm
    cases hf : (falsy d.request_id || falsy d.filename || falsy d.content) with
    | true => simp [fd_lambda_handler, hb, hp, hf] at hm
    | false =>
      have hrid : d.request_id = some (d.request_id.getD "") := by
        cases hridc : d.request_id with
        | none => simp [falsy, hridc] at hf
        | some s => rfl
      cases hdec : envD.b64decode (d.content.getD "") with
      | none => simp [fd_lambda_handler, hb, hp, hf, hdec] at hm
      | some bytes =>
        cases hdet : envD.detect bytes with
        | error => simp [fd_lambda_handler, hb, hp, hf, hdec, hdet] at hm
        | noFace => simp [fd_lambda_handler, hb, hp, hf, hdec, hdet] at hm
        | face crop =>
          by_cases hs : envD.sendOk
          · simp [fd_lambda_handler, hb, hp, hf, hdec, hdet, hs] at hm
            rw [hm]
            exact hrid
          · simp [fd_lambda_handler, hb, hp, hf, hdec, hdet, hs] at hm
  · intro m hm
    obtain ⟨o⟩ := evR
    cases o with
    | none => simp [fr_lambda_handler] at hm
    | some rs =>
      rw [fr_sent_eq_filterMap] at hm
      obtain ⟨r, hr, hmsg⟩ := List.mem_filterMap.mp hm
      refine ⟨r, by simpa using hr, ?_⟩
      cases r with
      | badJson => simp [recordMsg, processRecord] at hmsg
      | ok p =>
        refine ⟨p, rfl, ?_⟩
        cases hrid : p.request_id with
        | none => simp [recordMsg, processRecord, hrid] at hmsg
        | some rid =>
          cases hface : p.face with
          | none => simp [recordMsg, processRecord, hrid, hface] at hmsg
          | some f =>
            cases hdec : envR.b64decode f with
            | none => simp [recordMsg, processRecord, hrid, hface, hdec] at hmsg
            | some bytes =>
              cases hpred : envR.predictO bytes with
              | none =>
                simp [recordMsg, processRecord, hrid, hface, hdec, hpred] at hmsg
              | some label =>
                by_cases hs : envR.sendOk
                · simp only [recordMsg, processRecord, hrid, hface, hdec, hpred,
                    if_pos hs, Option.some.injEq] at hmsg
                  rw [← hmsg]
                · simp [recordMsg, processRecord, hrid, hface, hdec, hpred,
                    hs] at hmsg

/-- Closed instance of `request_id_preserved`, on a request that does enqueue
a message and a batch that does publish a result. -/
theorem request_id_preserved_witness :
    evAlice.body = some (BodyRaw.dict ⟨some "r1", some "alice.jpg", some "QUJD"⟩) ∧
    rawParse (BodyRaw.dict ⟨some "r1", some "alice.jpg", some "QUJD"⟩) =
      some ⟨some "r1", some "alice.jpg", some "QUJD"⟩ ∧
    ((∀ m ∈ (fd_lambda_handler evAlice envFace).sent,
        (ReqDict.mk (some "r1") (some "alice.jpg") (some "QUJD")).request_id =
          some m.request_id) ∧
     (∀ m ∈ (fr_lambda_handler ⟨some [recGood]⟩ frEnvOk).sent,
        ∃ r ∈ (FrEvent.mk (some [recGood])).records.getD [], ∃ p,
          r = FrRecord.ok p ∧ p.request_id = some m.request_id)) :=
  ⟨rfl, rfl,
    request_id_preserved evAlice envFace _ _ rfl rfl ⟨some [recGood]⟩ frEnvOk⟩

theorem processRecord_msg_sendFail (env : FrEnv) (h : env.sendOk = false)
    (i : Nat) (r : FrRecord) : (processRecord env i r).msg = none := by
  cases r with
  | badJson => rfl
  | ok p =>
    cases hrid : p.request_id with
    | none => simp [processRecord, hrid]
    | some rid =>
      cases hface : p.face with
      | none => simp [processRecord, hrid, hface]
      | some f =>
        cases hdec : env.b64decode f with
        | none => simp [processRecord, hrid, hface, hdec]
        | some bytes =>
          cases hpred : env.predictO bytes with
          | none => simp [processRecord, hrid, hface, hdec, hpred]
          | some label => simp [processRecord, hrid, hface, hdec, hpred, h]

/-- C10: the recognition-stage handler is total on the model and always
returns the fixed 200 response, for every event and environment: an event
without a `Records` key is handled identically to an empty batch, and with a
failing response-queue send (`sendOk = false`, the caught
`BotoCoreError`/`ClientError` case) the handler still returns 200 and simply
publishes nothing. -/
theorem fr_handler_total (ev : FrEvent) (env : FrEnv) :
    (fr_lambda_handler ev env).response =
      ⟨200, RespBody.message "Face recognition completed."⟩ ∧
    fr_lambda_handler ⟨none⟩ env = fr_lambda_handler ⟨some []⟩ env ∧
    (fr_lambda_handler ev { env with sendOk := false }).sent = [] := by
  refine ⟨rfl, rfl, ?_⟩
  obtain ⟨o⟩ := ev
  cases o with
  | none => rfl
  | some rs =>
    rw [fr_sent_eq_filterMap]
    rw [List.filterMap_eq_nil_iff]
    intro r hr
    exact processRecord_msg_sendFail _ rfl 0 r
